import Mathlib

/-!
Shallow embedding of the code-examples repository.

The repository contains four standalone JavaScript files:
- src/async-example/js/index.js : an async/await tutorial (fetchUser,
  fetchUserPosts, fetchPostCount, a DOM click handler, a .then() chain,
  and a Promise.all fan-out over several user ids);
- src/node-example/server.js : a plain-text router;
- src/node-example/my-app/app.js : a static file server;
- src/dom-example/js/index.js : a click handler appending divs.

Promises are modelled denotationally: a settled promise is an
`Except JsError a` value.  The network is an explicit environment `Api`
mapping the interpolated id string of each endpoint to an HTTP response.
Side effects (console logs, DOM writes, button state) are modelled as
explicit event traces.
-/

/-- A JavaScript error value: either a regular `Error` with its message,
or a `ReferenceError` raised by evaluating an undeclared variable name. -/
inductive JsError where
  | error (message : String)
  | referenceError (varName : String)
deriving Repr, DecidableEq

/-- A user record as parsed from the `/users/:id` JSON body. -/
structure User where
  id : Nat
  name : String
  username : String
  email : String
  city : String
  companyName : String
deriving Repr, DecidableEq

/-- A post record as parsed from the `/posts?userId=:id` JSON body. -/
structure Post where
  id : Nat
  userId : Nat
  title : String
  body : String
deriving Repr, DecidableEq

/-- An HTTP response as seen through the fetch API: a numeric status and
the already-parsed JSON body. -/
structure HttpResponse (α : Type) where
  status : Nat
  body : α
deriving Repr, DecidableEq

/-- The fetch API `Response.ok` flag: true exactly when the status is in
the 2xx success range (200..299). -/
def HttpResponse.ok (r : HttpResponse α) : Bool :=
  200 ≤ r.status && r.status ≤ 299

/-- The network environment: for each interpolated id string, the response
of `GET /users/:id` and of `GET /posts?userId=:id`. -/
structure Api where
  usersEndpoint : String → HttpResponse User
  postsEndpoint : String → HttpResponse (List Post)

/-- Model of `fetchUser` (src/async-example/js/index.js lines 46-56): fetch
`/users/:userId`; if the response is not ok, throw an Error whose message
interpolates the status; otherwise return the parsed JSON body. -/
def fetchUser (api : Api) (userId : String) : Except JsError User :=
  let response := api.usersEndpoint userId
  if !response.ok then
    .error (.error ("User not found ! Message : " ++ toString response.status))
  else
    .ok response.body

/-- Model of `fetchUserPosts` (src/async-example/js/index.js lines 82-92): fetch
`/posts?userId=:userId`; same error contract as `fetchUser`. -/
def fetchUserPosts (api : Api) (userId : String) : Except JsError (List Post) :=
  let response := api.postsEndpoint userId
  if !response.ok then
    .error (.error ("User not found ! Message : " ++ toString response.status))
  else
    .ok response.body

/-- Model of `fetchPostCount` (src/async-example/js/index.js lines 138-145): a
promise whose executor always calls `resolve(posts.length)` and never
calls `reject`. -/
def fetchPostCount (posts : List Post) : Except JsError Nat :=
  .ok posts.length

/-- The `{ name, postCount }` object built by the fan-out pipeline. -/
structure Profile where
  name : String
  postCount : Nat
deriving Repr, DecidableEq

/-- The async callback of `userIds.map` inside `showMultipleUsers`
(lines 228-236): fetch the user, then the posts of `user.id`, then the
count, and return `{ name, postCount }`. -/
def userPipeline (api : Api) (id : Nat) : Except JsError Profile := do
  let user ← fetchUser api (toString id)
  let posts ← fetchUserPosts api (toString user.id)
  let count ← fetchPostCount posts
  return { name := user.name, postCount := count }

/-- Model of `Promise.all` over an ordered list of settled promises: rejects with
the first rejection, otherwise resolves with the list of values in input
order. -/
def promiseAll : List (Except JsError α) → Except JsError (List α)
  | [] => .ok []
  | p :: ps =>
    match p with
    | .error e => .error e
    | .ok x =>
      match promiseAll ps with
      | .error e => .error e
      | .ok xs => .ok (x :: xs)

/-- Outcome of one run of `showMultipleUsers`: either the `results` array
logged on success, or the error caught by the catch block. -/
inductive FanOutOutcome where
  | success (results : List Profile)
  | failure (e : JsError)
deriving Repr, DecidableEq

/-- Model of `showMultipleUsers` (lines 224-257): map every id to its pipeline
promise, `await Promise.all` of them; the catch block receives the error
when any pipeline rejects, so no results array is produced then. -/
def showMultipleUsers (api : Api) (userIds : List Nat) : FanOutOutcome :=
  match promiseAll (userIds.map (userPipeline api)) with
  | .ok results => .success results
  | .error e => .failure e

deriving instance DecidableEq for Except

/-- One observable action of the button click handler
(src/async-example/js/index.js lines 99-131). -/
inductive HEvent where
  | disableBtn
  | fetchUserCall (userId : String)
  | renderStep1 (name : String)
  | fetchPostsCall (userId : String)
  | renderStep2 (postCount : Nat)
  | renderProfile (u : User) (firstPosts : List Post)
  | enableBtn
deriving Repr, DecidableEq

/-- One run of the click handler: the ordered trace of its observable
actions, and the error (if any) that propagates out of the handler as an
unhandled rejection. -/
structure HandlerRun where
  trace : List HEvent
  thrown : Option JsError
deriving Repr, DecidableEq

/-- The click handler (lines 99-131).  It reads the input value, sets
`button.disabled = true`, then awaits `fetchUser`, renders step 1, awaits
`fetchUserPosts(user.id)`, renders step 2 and the profile.  The catch
block evaluates the template `Users not found ! Message : ${response.status}`,
but `response` is not in scope there, so evaluating it raises a
ReferenceError, which propagates after the finally block has re-enabled
the button. -/
def clickHandler (api : Api) (inputValue : String) : HandlerRun :=
  let pre := [HEvent.disableBtn, HEvent.fetchUserCall inputValue]
  match fetchUser api inputValue with
  | .error _ =>
    { trace := pre ++ [HEvent.enableBtn],
      thrown := some (JsError.referenceError "response") }
  | .ok user =>
    let pre2 := pre ++ [HEvent.renderStep1 user.name,
                        HEvent.fetchPostsCall (toString user.id)]
    match fetchUserPosts api (toString user.id) with
    | .error _ =>
      { trace := pre2 ++ [HEvent.enableBtn],
        thrown := some (JsError.referenceError "response") }
    | .ok posts =>
      { trace := pre2 ++ [HEvent.renderStep2 posts.length,
                          HEvent.renderProfile user (posts.take 5),
                          HEvent.enableBtn],
        thrown := none }

/-- Button state after replaying the sets of `button.disabled` in a trace,
starting from the given state. -/
def disabledAfter (start : Bool) (trace : List HEvent) : Bool :=
  trace.foldl
    (fun s e =>
      match e with
      | HEvent.disableBtn => true
      | HEvent.enableBtn => false
      | _ => s)
    start

/-- True for the events that issue a network request. -/
def isFetchEvent : HEvent → Bool
  | HEvent.fetchUserCall _ => true
  | HEvent.fetchPostsCall _ => true
  | _ => false

/-- One console log of the Example 1 `.then()` chain (lines 154-175). -/
inductive LogEvent where
  | userFound (name : String)
  | foundPosts (n : Nat)
  | totalPosts (n : Nat)
  | errorLog (e : JsError)
  | processComplete
deriving Repr, DecidableEq

/-- The Example 1 chain `fetchUser(1).then(...).then(...).then(...)
.catch(...).finally(...)`: each then-callback runs only when the previous
step resolved; the single catch callback logs the first rejection; the
finally callback logs `Process Complete` in every case. -/
def thenChain (api : Api) : List LogEvent :=
  let core : List LogEvent × Option JsError :=
    match fetchUser api (toString 1) with
    | .error e => ([], some e)
    | .ok user =>
      match fetchUserPosts api (toString user.id) with
      | .error e => ([LogEvent.userFound user.name], some e)
      | .ok posts =>
        match fetchPostCount posts with
        | .error e =>
          ([LogEvent.userFound user.name, LogEvent.foundPosts posts.length], some e)
        | .ok count =>
          ([LogEvent.userFound user.name, LogEvent.foundPosts posts.length,
            LogEvent.totalPosts count], none)
  let withCatch :=
    match core.2 with
    | some e => core.1 ++ [LogEvent.errorLog e]
    | none => core.1
  withCatch ++ [LogEvent.processComplete]

/-- True for the logs emitted by the catch callback. -/
def isErrorLog : LogEvent → Bool
  | LogEvent.errorLog _ => true
  | _ => false

/-- True for the logs emitted by the three step callbacks. -/
def isStepLog : LogEvent → Bool
  | LogEvent.userFound _ => true
  | LogEvent.foundPosts _ => true
  | LogEvent.totalPosts _ => true
  | _ => false

/-- Split a character list on the slash character; `acc` holds the
(reversed) characters of the segment being read. -/
def splitSegsAux : List Char → List Char → List (List Char)
  | [], acc => [acc.reverse]
  | c :: cs, acc =>
    if c = '/' then acc.reverse :: splitSegsAux cs []
    else splitSegsAux cs (c :: acc)

/-- The slash-separated segments of a path string, empty segments
dropped (as POSIX path parsing does). -/
def splitPath (s : String) : List String :=
  ((splitSegsAux s.data []).filter (fun l => l ≠ [])).map (fun l => String.mk l)

/-- One step of POSIX path normalization on an absolute path: `.` is
dropped, `..` pops the last segment (staying at the root when already
there), any other segment is appended. -/
def normStep (acc : List String) (seg : String) : List String :=
  if seg = "." then acc
  else if seg = ".." then acc.dropLast
  else acc ++ [seg]

/-- Normalize the segments of an absolute path (model of the
normalization `path.join` applies to its result). -/
def normAbs (segs : List String) : List String :=
  segs.foldl normStep []

/-- Model of `path.join(base, p)` for an absolute `base` given as its segment
list: concatenate and normalize. -/
def joinPath (base : List String) (p : String) : List String :=
  normAbs (base ++ splitPath p)

/-- Index of the last dot in a character list, if any. -/
def lastDotIdx : List Char → Option Nat
  | [] => none
  | c :: cs =>
    match lastDotIdx cs with
    | some i => some (i + 1)
    | none => if c = '.' then some 0 else none

/-- Model of `path.extname` on a single basename: empty for `..`, for a name with
no dot, and for a name whose only leading character is a dot; otherwise
the substring from the last dot on. -/
def extnameSeg (b : String) : String :=
  if b = ".." then ""
  else
    match lastDotIdx b.data with
    | none => ""
    | some i => if i = 0 then "" else String.mk (b.data.drop i)

/-- Model of `path.extname` of an absolute path given as its segment list: the
extension of its basename (empty at the root). -/
def extnameOfSegs (segs : List String) : String :=
  match segs.getLast? with
  | none => ""
  | some b => extnameSeg b

/-- The response written by the static file server: status code, the
Content-Type header when one is set, and the body text. -/
structure ServerResponse where
  status : Nat
  contentType : Option String
  body : String
deriving Repr, DecidableEq

/-- Lines 7-8 of src/node-example/my-app/app.js: map the root URL to
`/index.html`, then join the URL onto `__dirname` (the base directory). -/
def resolveFilePath (baseDir : List String) (url : String) : List String :=
  let filePath := if url = "/" then "/index.html" else url
  joinPath baseDir filePath

/-- The request handler of the static file server (app.js lines 5-22):
resolve the file path, infer the content type from the extension
(`.css` gives `text/css`, anything else `text/html`), then serve the file
with status 200, or reply 404 `File not found` when reading fails.
`fsys` maps an absolute path (as segments) to the contents of the file
there, when one exists. -/
def staticHandler (fsys : List String → Option String) (baseDir : List String)
    (url : String) : ServerResponse :=
  let filePath := resolveFilePath baseDir url
  let ext := extnameOfSegs filePath
  let contentType := if ext = ".css" then "text/css" else "text/html"
  match fsys filePath with
  | none => { status := 404, contentType := none, body := "File not found" }
  | some data => { status := 200, contentType := some contentType, body := data }

/-- Characters of the URL `/../../..` (n times `/..`), used to exhibit
path traversal. -/
def trvChars : Nat → List Char
  | 0 => []
  | n + 1 => '/' :: '.' :: '.' :: trvChars n

/-- The URL consisting of n `/..` steps. -/
def traversalUrl (n : Nat) : String :=
  String.mk (trvChars n)

/-- One div appended by the dom-example click handler. -/
structure DomItem where
  classList : List String
  textContent : String
deriving Repr, DecidableEq

/-- The mutable state of src/dom-example/js/index.js: the `itemCount`
counter and the children of `#container` in document order. -/
structure DomState where
  itemCount : Nat
  container : List DomItem
deriving Repr, DecidableEq

/-- The state before any click: `itemCount = 0`, empty container. -/
def initialDom : DomState :=
  { itemCount := 0, container := [] }

/-- The add-button click handler (dom-example lines 12-35): increment
`itemCount`, create a div with class `item` and text `Item <count>`, and
append it to the container. -/
def addItemClick (s : DomState) : DomState :=
  let n := s.itemCount + 1
  let newItem : DomItem := { classList := ["item"], textContent := "Item " ++ toString n }
  { itemCount := n, container := s.container ++ [newItem] }

/-- The DOM state after n clicks of the add button. -/
def clicksN : Nat → DomState
  | 0 => initialDom
  | n + 1 => addItemClick (clicksN n)

/-- A placeholder body for failing responses (a rejected fetch never has
its body read). -/
def dummyUser : User :=
  { id := 0, name := "", username := "", email := "", city := "", companyName := "" }

/-- A concrete environment where every request succeeds with status 200. -/
def goodApi : Api :=
  { usersEndpoint := fun s =>
      { status := 200,
        body := { id := 1, name := "User " ++ s, username := "u", email := "e",
                  city := "c", companyName := "k" } },
    postsEndpoint := fun _ =>
      { status := 200,
        body := [{ id := 1, userId := 1, title := "t", body := "b" }] } }

/-- A concrete environment where the user endpoint replies 404 for id 2
and succeeds otherwise. -/
def badApi : Api :=
  { usersEndpoint := fun s =>
      if s = "2" then { status := 404, body := dummyUser }
      else
        { status := 200,
          body := { id := 1, name := "User " ++ s, username := "u", email := "e",
                    city := "c", companyName := "k" } },
    postsEndpoint := fun _ =>
      { status := 200,
        body := [{ id := 1, userId := 1, title := "t", body := "b" }] } }

/-- A concrete filesystem with two files under the base directory
srv/app. -/
def sampleFs : List String → Option String
  | ["srv", "app", "index.html"] => some "home page"
  | ["srv", "app", "style.css"] => some "body text"
  | _ => none

example : fetchPostCount [] = .ok 0 := by decide
example : splitPath "/a//b.css/" = ["a", "b.css"] := by decide
example : resolveFilePath ["srv", "app"] "/../secret.txt" = ["srv", "secret.txt"] := by decide
example : extnameOfSegs ["srv", "style.css"] = ".css" := by decide
example : (clicksN 2).container = [⟨["item"], "Item 1"⟩, ⟨["item"], "Item 2"⟩] := by decide

/-- Closed form of the DOM state after n clicks. -/
theorem clicksN_spec (n : Nat) :
    clicksN n =
      { itemCount := n,
        container := (List.range n).map
          (fun k => { classList := ["item"], textContent := "Item " ++ toString (k + 1) }) } := by
  induction n with
  | zero => rfl
  | succ m ih => simp [clicksN, ih, addItemClick, List.range_succ]

/-- C10: after n clicks of the add button, `itemCount` is n, exactly n
divs have been appended, the k-th (1-based) appended div has class
`item` and text `Item k`, and a later click only appends one new div,
leaving every earlier div unchanged. -/
theorem domClickHandler_invariant (n : Nat) :
    (clicksN n).itemCount = n ∧
    (clicksN n).container.length = n ∧
    (clicksN n).container =
      (List.range n).map
        (fun k => { classList := ["item"], textContent := "Item " ++ toString (k + 1) }) ∧
    (clicksN (n + 1)).container =
      (clicksN n).container ++
        [{ classList := ["item"], textContent := "Item " ++ toString (n + 1) }] := by
  refine ⟨?_, ?_, ?_, ?_⟩
  · rw [clicksN_spec]
  · rw [clicksN_spec]; simp
  · rw [clicksN_spec]
  · rw [clicksN_spec (n + 1), clicksN_spec n]; simp [List.range_succ]

/-- C7: `fetchPostCount` always resolves with exactly the length of its
input array and never rejects. -/
theorem fetchPostCount_length (posts : List Post) :
    fetchPostCount posts = Except.ok posts.length ∧
    ∀ e : JsError, fetchPostCount posts ≠ Except.error e :=
  ⟨rfl, fun _ h => Except.noConfusion h⟩

/-- If a rejected promise occurs in the list, `Promise.all` rejects. -/
theorem promiseAll_error_of_mem {α : Type} {l : List (Except JsError α)} {e : JsError}
    (h : Except.error e ∈ l) : ∃ e2, promiseAll l = Except.error e2 := by
  induction l with
  | nil => cases h
  | cons p ps ih =>
    rcases List.mem_cons.mp h with h1 | h2
    · exact ⟨e, by rw [← h1]; rfl⟩
    · rcases p with e3 | x
      · exact ⟨e3, rfl⟩
      · rcases ih h2 with ⟨e2, h3⟩
        exact ⟨e2, by simp [promiseAll, h3]⟩

/-- C1: if any single pipeline of the fan-out rejects, the whole
`showMultipleUsers` run fails and produces no results array at all. -/
theorem showMultipleUsers_failFast (api : Api) (ids : List Nat) (id : Nat) (e : JsError)
    (hmem : id ∈ ids) (hfail : userPipeline api id = Except.error e) :
    (∃ e2, showMultipleUsers api ids = FanOutOutcome.failure e2) ∧
    ∀ results, showMultipleUsers api ids ≠ FanOutOutcome.success results := by
  have hmem2 : Except.error e ∈ ids.map (userPipeline api) :=
    List.mem_map.mpr ⟨id, hmem, hfail⟩
  rcases promiseAll_error_of_mem hmem2 with ⟨e2, h2⟩
  refine ⟨⟨e2, ?_⟩, ?_⟩
  · simp [showMultipleUsers, h2]
  · intro results h
    simp [showMultipleUsers, h2] at h

/-- Witness for C1: in `badApi`, pipeline 2 rejects with the 404 error,
so the fan-out over [1, 2, 3] fails and yields no results. -/
theorem showMultipleUsers_failFast_witness :
    (2 ∈ [1, 2, 3] ∧
      userPipeline badApi 2 = Except.error (JsError.error "User not found ! Message : 404")) ∧
    ((∃ e2, showMultipleUsers badApi [1, 2, 3] = FanOutOutcome.failure e2) ∧
      ∀ results, showMultipleUsers badApi [1, 2, 3] ≠ FanOutOutcome.success results) :=
  ⟨⟨by decide, by decide⟩,
    showMultipleUsers_failFast badApi [1, 2, 3] 2
      (JsError.error "User not found ! Message : 404") (by decide) (by decide)⟩

/-- C2: when the three pipelines for ids 1, 2, 3 all resolve, the
fan-out yields exactly those three `{ name, postCount }` entries, in the
order of the input id list. -/
theorem showMultipleUsers_ordered (api : Api) (p1 p2 p3 : Profile)
    (h1 : userPipeline api 1 = Except.ok p1)
    (h2 : userPipeline api 2 = Except.ok p2)
    (h3 : userPipeline api 3 = Except.ok p3) :
    showMultipleUsers api [1, 2, 3] = FanOutOutcome.success [p1, p2, p3] := by
  simp [showMultipleUsers, promiseAll, h1, h2, h3]

/-- Witness for C2: in `goodApi` all three pipelines resolve and the
fan-out returns their three profiles in input order. -/
theorem showMultipleUsers_ordered_witness :
    showMultipleUsers goodApi [1, 2, 3] =
      FanOutOutcome.success
        [{ name := "User 1", postCount := 1 },
         { name := "User 2", postCount := 1 },
         { name := "User 3", postCount := 1 }] :=
  showMultipleUsers_ordered goodApi
    { name := "User 1", postCount := 1 }
    { name := "User 2", postCount := 1 }
    { name := "User 3", postCount := 1 }
    (by decide) (by decide) (by decide)

/-- C5: on every run of the click handler the very first action disables
the button (before any fetch), the very last action re-enables it, and
replaying the trace from any starting button state leaves the button
enabled: the handler never terminates with the button disabled, on the
success path or the failure path. -/
theorem clickHandler_button_discipline (api : Api) (inputValue : String) :
    (clickHandler api inputValue).trace.head? = some HEvent.disableBtn ∧
    (clickHandler api inputValue).trace.getLast? = some HEvent.enableBtn ∧
    ∀ start : Bool, disabledAfter start (clickHandler api inputValue).trace = false := by
  rcases hf : fetchUser api inputValue with e | user
  · exact ⟨by simp [clickHandler, hf],
      by simp [clickHandler, hf],
      fun start => by simp [clickHandler, hf, disabledAfter]⟩
  · rcases hp : fetchUserPosts api (toString user.id) with e | posts
    · exact ⟨by simp [clickHandler, hf, hp],
        by simp [clickHandler, hf, hp],
        fun start => by simp [clickHandler, hf, hp, disabledAfter]⟩
    · exact ⟨by simp [clickHandler, hf, hp],
        by simp [clickHandler, hf, hp],
        fun start => by simp [clickHandler, hf, hp, disabledAfter]⟩

/-- The flag `Response.ok` holds exactly on the 2xx statuses. -/
theorem HttpResponse.ok_iff {α : Type} (r : HttpResponse α) :
    r.ok = true ↔ (200 ≤ r.status ∧ r.status ≤ 299) := by
  simp [HttpResponse.ok]

/-- C3: for a response whose status is outside 2xx, `fetchUser` and
`fetchUserPosts` reject with an error whose message contains the numeric
status code; for a 2xx response they resolve with the parsed body. -/
theorem fetch_status_contract (api : Api) (s : String) :
    (¬ (200 ≤ (api.usersEndpoint s).status ∧ (api.usersEndpoint s).status ≤ 299) →
      ∃ pre suf, fetchUser api s =
        Except.error (JsError.error (pre ++ toString (api.usersEndpoint s).status ++ suf))) ∧
    ((200 ≤ (api.usersEndpoint s).status ∧ (api.usersEndpoint s).status ≤ 299) →
      fetchUser api s = Except.ok (api.usersEndpoint s).body) ∧
    (¬ (200 ≤ (api.postsEndpoint s).status ∧ (api.postsEndpoint s).status ≤ 299) →
      ∃ pre suf, fetchUserPosts api s =
        Except.error (JsError.error (pre ++ toString (api.postsEndpoint s).status ++ suf))) ∧
    ((200 ≤ (api.postsEndpoint s).status ∧ (api.postsEndpoint s).status ≤ 299) →
      fetchUserPosts api s = Except.ok (api.postsEndpoint s).body) := by
  refine ⟨fun h => ?_, fun h => ?_, fun h => ?_, fun h => ?_⟩
  · refine ⟨"User not found ! Message : ", "", ?_⟩
    have hok : (api.usersEndpoint s).ok = false := by
      rcases Bool.eq_false_or_eq_true (api.usersEndpoint s).ok with h1 | h0
      · exact absurd ((HttpResponse.ok_iff _).mp h1) h
      · exact h0
    simp [fetchUser, hok, String.append_empty]
  · have hok : (api.usersEndpoint s).ok = true := (HttpResponse.ok_iff _).mpr h
    simp [fetchUser, hok]
  · refine ⟨"User not found ! Message : ", "", ?_⟩
    have hok : (api.postsEndpoint s).ok = false := by
      rcases Bool.eq_false_or_eq_true (api.postsEndpoint s).ok with h1 | h0
      · exact absurd ((HttpResponse.ok_iff _).mp h1) h
      · exact h0
    simp [fetchUserPosts, hok, String.append_empty]
  · have hok : (api.postsEndpoint s).ok = true := (HttpResponse.ok_iff _).mpr h
    simp [fetchUserPosts, hok]

/-- Witness for C3: in `badApi` the user endpoint answers id 2 with 404
and `fetchUser` rejects with a message containing 404; in `goodApi` both
endpoints answer 200 and both fetches resolve with the parsed body. -/
theorem fetch_status_contract_witness :
    (¬ (200 ≤ (badApi.usersEndpoint "2").status ∧ (badApi.usersEndpoint "2").status ≤ 299) ∧
      ∃ pre suf, fetchUser badApi "2" =
        Except.error (JsError.error (pre ++ toString (badApi.usersEndpoint "2").status ++ suf))) ∧
    ((200 ≤ (goodApi.postsEndpoint "1").status ∧ (goodApi.postsEndpoint "1").status ≤ 299) ∧
      fetchUserPosts goodApi "1" = Except.ok (goodApi.postsEndpoint "1").body) :=
  ⟨⟨by decide, (fetch_status_contract badApi "2").1 (by decide)⟩,
   ⟨by decide, (fetch_status_contract goodApi "1").2.2.2 (by decide)⟩⟩

/-- C6: the then-chain always ends with the finally log, logs at most one
caught error, and its trace is exactly one of three shapes: all three
steps in order when everything resolves; the catch log right after the
failure point otherwise, with every later step skipped (the count step
itself never rejects). -/
theorem thenChain_behavior (api : Api) :
    (thenChain api).getLast? = some LogEvent.processComplete ∧
    ((thenChain api).filter (fun e => isErrorLog e)).length ≤ 1 ∧
    ((∃ user posts,
        fetchUser api (toString 1) = Except.ok user ∧
        fetchUserPosts api (toString user.id) = Except.ok posts ∧
        thenChain api =
          [LogEvent.userFound user.name, LogEvent.foundPosts posts.length,
           LogEvent.totalPosts posts.length, LogEvent.processComplete]) ∨
     (∃ e,
        fetchUser api (toString 1) = Except.error e ∧
        thenChain api = [LogEvent.errorLog e, LogEvent.processComplete]) ∨
     (∃ user e,
        fetchUser api (toString 1) = Except.ok user ∧
        fetchUserPosts api (toString user.id) = Except.error e ∧
        thenChain api =
          [LogEvent.userFound user.name, LogEvent.errorLog e, LogEvent.processComplete])) := by
  rcases hf : fetchUser api (toString 1) with e | user
  · refine ⟨?_, ?_, Or.inr (Or.inl ⟨e, rfl, ?_⟩)⟩ <;>
      simp [thenChain, hf, isErrorLog]
  · rcases hp : fetchUserPosts api (toString user.id) with e | posts
    · refine ⟨?_, ?_, Or.inr (Or.inr ⟨user, e, rfl, hp, ?_⟩)⟩ <;>
        simp [thenChain, hf, hp, isErrorLog]
    · refine ⟨?_, ?_, Or.inl ⟨user, posts, rfl, hp, ?_⟩⟩ <;>
        simp [thenChain, hf, hp, isErrorLog, fetchPostCount]

/-- C4, observed behavior at a failing input: when `fetchUser` rejects
(status 404 for id 2 in `badApi`), the catch block of the click handler
does not render or log anything carrying the status code; evaluating the
out-of-scope variable `response` raises a ReferenceError that propagates
out of the handler after the finally block re-enables the button. -/
theorem clickHandler_catch_raises_referenceError :
    clickHandler badApi "2" =
      { trace := [HEvent.disableBtn, HEvent.fetchUserCall "2", HEvent.enableBtn],
        thrown := some (JsError.referenceError "response") } := by decide

/-- Counterexample for C8 as stated: the request URL `/../secret.txt`
resolves to srv/secret.txt, which is not under the base directory
srv/app, so the server does not resolve every URL to a file under its
base directory. -/
theorem staticHandler_leaves_baseDir :
    resolveFilePath ["srv", "app"] "/../secret.txt" = ["srv", "secret.txt"] ∧
    List.isPrefixOf ["srv", "app"] (resolveFilePath ["srv", "app"] "/../secret.txt") = false := by
  decide

/-- C8 (amended): the server resolves a request URL by joining it onto
the base directory (mapping the root URL to /index.html), serves an
existing file with status 200 and content type text/css for the `.css`
extension and text/html otherwise, and replies 404 when the file is
missing. -/
theorem staticHandler_behavior (fsys : List String → Option String)
    (baseDir : List String) (url : String) :
    (url = "/" → resolveFilePath baseDir url = joinPath baseDir "/index.html") ∧
    (url ≠ "/" → resolveFilePath baseDir url = joinPath baseDir url) ∧
    (fsys (resolveFilePath baseDir url) = none →
      staticHandler fsys baseDir url =
        { status := 404, contentType := none, body := "File not found" }) ∧
    (∀ data, fsys (resolveFilePath baseDir url) = some data →
      staticHandler fsys baseDir url =
        { status := 200,
          contentType := some (if extnameOfSegs (resolveFilePath baseDir url) = ".css"
            then "text/css" else "text/html"),
          body := data }) := by
  refine ⟨fun h => by simp [resolveFilePath, h],
    fun h => by simp [resolveFilePath, h],
    fun h => by simp [staticHandler, h],
    fun data h => by simp [staticHandler, h]⟩

/-- Witness for C8 (amended): on the sample filesystem, /style.css is
served with status 200 and content type text/css, and a missing file
gets the 404 reply. -/
theorem staticHandler_behavior_witness :
    (sampleFs (resolveFilePath ["srv", "app"] "/style.css") = some "body text" ∧
      staticHandler sampleFs ["srv", "app"] "/style.css" =
        { status := 200,
          contentType := some (if extnameOfSegs (resolveFilePath ["srv", "app"] "/style.css") = ".css"
            then "text/css" else "text/html"),
          body := "body text" }) ∧
    (sampleFs (resolveFilePath ["srv", "app"] "/missing.html") = none ∧
      staticHandler sampleFs ["srv", "app"] "/missing.html" =
        { status := 404, contentType := none, body := "File not found" }) :=
  ⟨⟨by decide,
    (staticHandler_behavior sampleFs ["srv", "app"] "/style.css").2.2.2 "body text" (by decide)⟩,
   ⟨by decide,
    (staticHandler_behavior sampleFs ["srv", "app"] "/missing.html").2.2.1 (by decide)⟩⟩

/-- Splitting the n-fold `/..` character list yields one empty leading
segment and n double-dot segments. -/
theorem splitSegsAux_trvChars (n : Nat) (acc : List Char) :
    splitSegsAux (trvChars n) acc = acc.reverse :: List.replicate n ['.', '.'] := by
  induction n generalizing acc with
  | zero => simp [trvChars, splitSegsAux]
  | succ m ih =>
    show splitSegsAux ('/' :: '.' :: '.' :: trvChars m) acc = _
    simp [splitSegsAux, ih, List.replicate_succ]

/-- The n-fold `/..` URL splits into n double-dot segments. -/
theorem splitPath_traversalUrl (n : Nat) :
    splitPath (traversalUrl n) = List.replicate n ".." := by
  have h0 : ∀ m : Nat,
      List.filter (fun l : List Char => l ≠ []) (List.replicate m ['.', '.']) =
        List.replicate m ['.', '.'] := by
    intro m
    induction m with
    | zero => rfl
    | succ k ih => rw [List.replicate_succ, List.filter_cons]; simp [ih]
  rw [splitPath, show (traversalUrl n).data = trvChars n from rfl, splitSegsAux_trvChars]
  rw [show (([] : List Char).reverse :: List.replicate n (['.', '.'] : List Char)) =
        [] :: List.replicate n ['.', '.'] from rfl]
  rw [List.filter_cons, if_neg (by decide), h0 n, List.map_replicate]

/-- A double-dot segment pops the last directory. -/
theorem normStep_ddot (acc : List String) : normStep acc ".." = acc.dropLast := by
  simp [normStep]

/-- Normalization never yields more segments than it consumed. -/
theorem length_foldl_normStep (l : List String) (acc : List String) :
    (List.foldl normStep acc l).length ≤ acc.length + l.length := by
  induction l generalizing acc with
  | nil => simp
  | cons s rest ih =>
    rw [List.foldl_cons]
    have hstep : (normStep acc s).length ≤ acc.length + 1 := by
      unfold normStep
      split
      · omega
      · split
        · rw [List.length_dropLast]; omega
        · simp
    calc (List.foldl normStep (normStep acc s) rest).length
        ≤ (normStep acc s).length + rest.length := ih _
      _ ≤ acc.length + 1 + rest.length := by omega
      _ = acc.length + (s :: rest).length := by simp; omega

/-- Enough double-dot segments pop an absolute path all the way to the
filesystem root. -/
theorem foldl_normStep_replicate (n : Nat) (acc : List String) (h : acc.length ≤ n) :
    List.foldl normStep acc (List.replicate n "..") = [] := by
  induction n generalizing acc with
  | zero =>
    have hacc : acc = [] := List.length_eq_zero.mp (Nat.le_zero.mp h)
    simp [hacc]
  | succ m ih =>
    rw [List.replicate_succ, List.foldl_cons, normStep_ddot]
    exact ih _ (by rw [List.length_dropLast]; omega)

/-- C9: for every nonempty base directory there is a request URL (built
from `..` segments) whose resolved file path is the filesystem root,
outside the base directory: the join of the raw URL performs no
traversal check. -/
theorem staticHandler_pathTraversal (base : List String) (hbase : base ≠ []) :
    ∃ url, resolveFilePath base url = [] ∧
      List.isPrefixOf base (resolveFilePath base url) = false := by
  have hne : traversalUrl base.length ≠ "/" := by
    rcases base with _ | ⟨b, bs⟩
    · exact absurd rfl hbase
    · intro h
      rw [String.ext_iff] at h
      rw [show (traversalUrl (b :: bs).length).data = trvChars (bs.length + 1) from rfl] at h
      rw [show ("/" : String).data = ['/'] from rfl] at h
      simp [trvChars] at h
  have hres : resolveFilePath base (traversalUrl base.length) = [] := by
    rw [resolveFilePath]
    simp only [if_neg hne]
    rw [joinPath, splitPath_traversalUrl, normAbs, List.foldl_append]
    refine foldl_normStep_replicate base.length (List.foldl normStep [] base) ?_
    have := length_foldl_normStep base []
    simpa using this
  refine ⟨traversalUrl base.length, hres, ?_⟩
  rw [hres]
  rcases base with _ | ⟨b, bs⟩
  · exact absurd rfl hbase
  · rfl

/-- Witness for C9: for the concrete base directory srv/app, the URL
`/../..` resolves to the filesystem root, outside srv/app. -/
theorem staticHandler_pathTraversal_witness :
    (["srv", "app"] : List String) ≠ [] ∧
    ∃ url, resolveFilePath ["srv", "app"] url = [] ∧
      List.isPrefixOf ["srv", "app"] (resolveFilePath ["srv", "app"] url) = false :=
  ⟨by decide, staticHandler_pathTraversal ["srv", "app"] (by decide)⟩
